import Mathlib

/-!
Verification of the boot / soft-reset orchestrator in
`src/omv/ports/rp2/main.c` (OpenMV RP2 port).

The C code is shallowly embedded: the `static` accumulator of
`rosc_random_u8` is threaded explicitly, the control flow of `main` is
rendered as pure functions producing event traces, and build-time `#if`
flags become a `Config` record of booleans.
-/

namespace RP2Main

/-! ## Entropy source (`rosc_random_u8`, lines 305–314) -/

/-- One iteration of the loop body of `rosc_random_u8`:
`r = ((r << 1) | rosc_hw->randombit) ^ (r & 0x80 ? POLY : 0);`
with `POLY = 0xD5`. `r` is a `uint8_t`: the right-hand side is computed
in `int` (all reads of `r` see its old value) and the assignment
truncates mod 256. The sampled hardware bit is `b`. -/
def roscStep (r : Nat) (b : Bool) : Nat :=
  (((r <<< 1) ||| (if b then 1 else 0)) ^^^ (if r &&& 0x80 ≠ 0 then 0xD5 else 0)) % 256

/-- Hardware events of one `rosc_random_u8` call: reading
`rosc_hw->randombit`, and the `mp_hal_delay_us_fast(1)` delay. -/
inductive REv where
  | sample (b : Bool)
  | delayUs (n : Nat)
deriving DecidableEq

/-- `rosc_random_u8(cycles)` with the `static uint8_t r` passed in
explicitly and the oscillator bits sampled by the loop given as a list
(`cycles = bits.length`, one bit per iteration). Returns the returned
byte — which is also the accumulator value left in the static for the
next call — together with the trace of hardware events: each iteration
samples one bit and then delays 1 µs. -/
def rosc_random_u8 (r : Nat) : List Bool → Nat × List REv
  | [] => (r, [])
  | b :: rest =>
      ((rosc_random_u8 (roscStep r b) rest).1,
       REv.sample b :: REv.delayUs 1 :: (rosc_random_u8 (roscStep r b) rest).2)

/-- A sequence of calls to `rosc_random_u8`, threading the `static`
accumulator from one call to the next exactly as the C `static` storage
does (C zero-initialises it, so the power-on value is 0). Returns the
list of returned bytes and the final accumulator value. -/
def runCalls (r : Nat) : List (List Bool) → List Nat × Nat
  | [] => ([], r)
  | bits :: rest =>
      ((rosc_random_u8 r bits).1 :: (runCalls (rosc_random_u8 r bits).1 rest).1,
       (runCalls (rosc_random_u8 r bits).1 rest).2)

/-- The per-sample update rule exactly as the specification words it:
shift the 8-bit accumulator left by one (dropping the top bit), inject
the sampled oscillator bit into the low position, and XOR with 0xD5
when the bit shifted out of the top was set. -/
def specStep (r : Nat) (b : Bool) : Nat :=
  ((r % 128) * 2 + (if b then 1 else 0)) ^^^ (if 128 ≤ r then 0xD5 else 0)

/-! ## Subsystem bring-up and teardown (lines 149–181 and 268–284) -/

/-- The build-time `#if` flags of `main.c` that gate subsystem init and
deinit calls. They are set outside this repository (port config), so the
model is parametric in them. -/
structure Config where
  audio : Bool
  bluetooth : Bool
  network : Bool
  sensor : Bool
deriving DecidableEq

/-- The subsystems whose init or deinit `main` calls between the
`soft_reset` label and `goto soft_reset`. `gc` stands for
`gc_sweep_all`, `mp` for the `mp_init`/`mp_deinit` pair. -/
inductive Subsys where
  | mp | readline | pin | pio | dma | i2s | bluetooth | network
  | pendsv | usbdbg | fbAlloc | framebuffer | fir | sensor
  | audio | pwm | gc
deriving DecidableEq

/-- The order of subsystem init calls after the `soft_reset` label
(lines 149–181): `mp_init`, `readline_init0`, `machine_pin_init`,
`rp2_pio_init`, `rp2_dma_init`, `machine_i2s_init0`, then under their
`#if` flags `mp_bluetooth_hci_init` and `mod_network_init`, then
`pendsv_init`, `usbdbg_init`, `fb_alloc_init0`, `framebuffer_init0`,
`py_fir_init0`, and under `MICROPY_PY_SENSOR` the checked
`sensor_init`. -/
def initOrder (cfg : Config) : List Subsys :=
  [Subsys.mp, Subsys.readline, Subsys.pin, Subsys.pio, Subsys.dma, Subsys.i2s]
  ++ (if cfg.bluetooth then [Subsys.bluetooth] else [])
  ++ (if cfg.network then [Subsys.network] else [])
  ++ [Subsys.pendsv, Subsys.usbdbg, Subsys.fbAlloc, Subsys.framebuffer, Subsys.fir]
  ++ (if cfg.sensor then [Subsys.sensor] else [])

/-- The order of deinit calls at `soft_reset_exit` (lines 268–284):
under their `#if` flags `py_audio_deinit`, `mp_bluetooth_deinit`,
`mod_network_deinit`, then unconditionally `rp2_pio_deinit`,
`rp2_dma_deinit`, `machine_pwm_deinit_all`, `machine_pin_deinit`,
`gc_sweep_all`, `mp_deinit`. -/
def deinitOrder (cfg : Config) : List Subsys :=
  (if cfg.audio then [Subsys.audio] else [])
  ++ (if cfg.bluetooth then [Subsys.bluetooth] else [])
  ++ (if cfg.network then [Subsys.network] else [])
  ++ [Subsys.pio, Subsys.dma, Subsys.pwm, Subsys.pin, Subsys.gc, Subsys.mp]

/-- The teardown sequence actually executed, as a function of the init
outcomes of the cycle (`outcomes s = true` when `s`'s init succeeded).
The code at `soft_reset_exit` runs the fixed deinit list
unconditionally: no init outcome is recorded or consulted. -/
def tear_down (cfg : Config) (outcomes : Subsys → Bool) : List Subsys :=
  deinitOrder cfg

/-- The teardown sequence as the specification claims it: deinit exactly
the subsystems whose init succeeded in this cycle, in reverse
initialization order. Stated from the spec for comparison with
`tear_down`. -/
def claimedTearDown (cfg : Config) (outcomes : Subsys → Bool) : List Subsys :=
  ((initOrder cfg).filter outcomes).reverse

/-! ## One soft-reset cycle of `main` (lines 147–287) -/

/-- Observable events of one cycle of `main`: a subsystem init call, a
`printf`-style log line, the `mp_exec_bootscript` runs of `boot.py` and
`main.py`, `usbdbg_set_irq_enabled`, the `pyexec_str` run of the
host-injected script, printing an intercepted exception,
`usbdbg_wait_for_command`, one REPL iteration, and a deinit call. -/
inductive Ev where
  | initSub (s : Subsys)
  | log (msg : String)
  | bootScript (interrupted : Bool)
  | mainScript
  | setIrq (enabled : Bool)
  | execScript (faulted : Bool)
  | printException
  | waitForCommand (timeoutMs : Nat)
  | repl
  | deinitSub (s : Subsys)
deriving DecidableEq

/-- The init phase of one cycle (lines 149–181): the init calls in
`initOrder`; `sensor_init` is the only one whose result is checked —
when it returns nonzero the code prints `sensor init failed!` and falls
through to the rest of the cycle. -/
def initEvents (cfg : Config) (sensorFail : Bool) : List Ev :=
  (initOrder cfg).map Ev.initSub
  ++ (if cfg.sensor && sensorFail then [Ev.log "sensor init failed!"] else [])

/-- The REPL loop (`while (!usbdbg_script_ready())`, lines 221–241):
each iteration pushes an NLR frame, enables the IDE interrupt and runs
one REPL pass. `iters` is how many iterations run before the loop
exits (script became ready, or a REPL pass returned nonzero). -/
def replLoop (iters : Nat) : List Ev :=
  (List.replicate iters [Ev.setIrq true, Ev.repl]).flatten

/-- The host-script block of `main` (lines 243–266), straight from the
source. Inputs: `ready` = `usbdbg_script_ready()`; `fault` = whether
`pyexec_str` raises past the NLR recovery point; `busy` =
`usbdbg_is_busy()` after the run; `waitFault` = whether
`usbdbg_wait_for_command` raises; `irq0` = IDE-interrupt enable state
on entry. Returns the event trace and the enable state on exit. On the
normal path the code enables the interrupt, runs the script, disables
the interrupt and pops the NLR frame; when the script faults, control
resumes at the `else` branch which only prints the exception — the
disable call is skipped. The busy-wait block repeats the same bracket
around `usbdbg_wait_for_command(1000)` and is entered only when
`usbdbg_is_busy()`. -/
def hostScriptBlock (ready fault busy waitFault irq0 : Bool) : List Ev × Bool :=
  if ready then
    let s1 :=
      if fault then
        ([Ev.setIrq true, Ev.execScript true, Ev.printException], true)
      else
        ([Ev.setIrq true, Ev.execScript false, Ev.setIrq false], false)
    let s2 :=
      if busy then
        if waitFault then
          ([Ev.setIrq true, Ev.waitForCommand 1000], true)
        else
          ([Ev.setIrq true, Ev.waitForCommand 1000, Ev.setIrq false], false)
      else ([], s1.2)
    (s1.1 ++ s2.1, s2.2)
  else ([], irq0)

/-- The step order the specification claims for `RunHostScript`:
disable the channel interrupt, run the buffered script, re-enable the
interrupt, then the bounded wait. Stated from the spec for comparison
with `hostScriptBlock`. -/
def claimedHostSeq : List Ev :=
  [Ev.setIrq false, Ev.execScript false, Ev.setIrq true, Ev.waitForCommand 1000]

/-- The per-cycle inputs from the environment: whether `sensor_init`
fails, the boolean returned by `mp_exec_bootscript("boot.py", ...)`
(true when the boot script was interrupted — the spec maps early exit
and fault both to this report), whether `mp_vfs_import_stat("main.py")`
finds a main script, how many REPL iterations run, and the host-script
block inputs. -/
structure CycleIn where
  sensorFail : Bool
  interrupted : Bool
  mainExists : Bool
  replIters : Nat
  scriptReady : Bool
  fault : Bool
  busy : Bool
  waitFault : Bool

/-- The event trace of one cycle, `soft_reset` label to `goto
soft_reset` (lines 147–287), given the `first_soft_reset` flag: init
phase, the `boot.py` run, then either the one-shot `main.py` run (when
`first_soft_reset && !interrupted && mp_vfs_import_stat("main.py")`,
line 215) which jumps straight to `soft_reset_exit`, or the REPL loop
followed by the host-script block; finally the unconditional deinit
sequence. -/
def cycleEvents (cfg : Config) (first : Bool) (cin : CycleIn) : List Ev :=
  initEvents cfg cin.sensorFail
  ++ [Ev.bootScript cin.interrupted]
  ++ (if first && !cin.interrupted && cin.mainExists then
        [Ev.mainScript]
      else
        replLoop cin.replIters
        ++ (hostScriptBlock cin.scriptReady cin.fault cin.busy cin.waitFault false).1)
  ++ (deinitOrder cfg).map Ev.deinitSub

/-- The only mutable state `main` carries across cycles: the
`first_soft_reset` local (line 108, initialised `true`). -/
structure LoopSt where
  firstSoftReset : Bool
deriving DecidableEq

/-- One cycle plus the cross-cycle state update: line 285 sets
`first_soft_reset = false` before `goto soft_reset`, on every path
(the `main.py` path jumps to `soft_reset_exit`, which precedes it). -/
def cycleStep (cfg : Config) (s : LoopSt) (cin : CycleIn) : List Ev × LoopSt :=
  (cycleEvents cfg s.firstSoftReset cin, ⟨false⟩)

/-- The trace of `main`: cycle `n`'s events and the state left for
cycle `n + 1`, starting from `first_soft_reset = true` at power-on.
Total in `n`: the code re-enters `soft_reset` unconditionally, so a
cycle exists for every `n`. -/
def mainRun (cfg : Config) (ins : Nat → CycleIn) : Nat → List Ev × LoopSt
  | 0 => cycleStep cfg ⟨true⟩ (ins 0)
  | n + 1 => cycleStep cfg (mainRun cfg ins n).2 (ins (n + 1))

/-- What follows `soft_reset_exit`'s deinit calls: either the jump back
to `soft_reset` or falling through to `return 0` (line 287). -/
inductive NextCtl where
  | softReset
  | retZero
deriving DecidableEq

/-- The tail of the cycle, lines 285–287: `first_soft_reset = false;
goto soft_reset;` — the `goto` is unconditional, so `return 0` on
line 287 is never reached. -/
def afterTeardown (s : LoopSt) : NextCtl × LoopSt :=
  (NextCtl.softReset, ⟨false⟩)

/-! ## Fatal handler (`__fatal_error`, lines 91–101) -/

/-- Hardware events of `__fatal_error`: the one-time GPIO setup, a
`gpio_put(OMV_LED_PIN, level)`, and a `sleep_ms(n)`. -/
inductive FEv where
  | gpioInit
  | gpioSetDir
  | gpioPut (level : Bool)
  | sleepMs (n : Nat)
deriving DecidableEq

/-- The body of the `while (true)` loop in `__fatal_error`: LED on,
sleep 100 ms, LED off, sleep 100 ms. The body is straight-line: it
contains no `break` or `return`. -/
def fatalBody : List FEv :=
  [FEv.gpioPut true, FEv.sleepMs 100, FEv.gpioPut false, FEv.sleepMs 100]

/-- The loop condition of `__fatal_error`'s `while (true)`: the literal
`true`, so the loop never exits and the function never returns. -/
def fatalLoopGuard : Bool := true

/-- The events `__fatal_error` has emitted after `n` loop iterations:
the GPIO setup (lines 92–93) followed by `n` copies of the blink
body. -/
def fatalEvents : Nat → List FEv
  | 0 => [FEv.gpioInit, FEv.gpioSetDir]
  | n + 1 => fatalEvents n ++ fatalBody

/-- Concrete configuration used to instantiate lemmas: only
`MICROPY_PY_SENSOR` compiled in. -/
def cfgW : Config := ⟨false, false, false, true⟩

/-- Concrete cycle inputs used to instantiate lemmas: `sensor_init`
fails, the boot script is not interrupted, `main.py` exists, no REPL
iterations, no host script. -/
def insW : Nat → CycleIn := fun _ => ⟨true, false, true, 0, false, false, false, false⟩

/-! ## Helper lemmas -/

set_option maxRecDepth 8000 in
theorem roscStep_spec : ∀ r < 256, ∀ b : Bool,
    roscStep r b = specStep r b ∧ roscStep r b < 256 := by decide

theorem rosc_fst (r : Nat) (bits : List Bool) :
    (rosc_random_u8 r bits).1 = bits.foldl roscStep r := by
  induction bits generalizing r with
  | nil => rfl
  | cons b rest ih => simp [rosc_random_u8, ih]

theorem runCalls_append (r : Nat) (xs ys : List (List Bool)) :
    runCalls r (xs ++ ys) =
      ((runCalls r xs).1 ++ (runCalls (runCalls r xs).2 ys).1,
       (runCalls (runCalls r xs).2 ys).2) := by
  induction xs generalizing r with
  | nil => rfl
  | cons x rest ih => simp [runCalls, ih]

theorem runCalls_snd (r : Nat) (calls : List (List Bool)) :
    (runCalls r calls).2 = calls.flatten.foldl roscStep r := by
  induction calls generalizing r with
  | nil => rfl
  | cons bits rest ih => simp [runCalls, ih, rosc_fst, List.foldl_append]

theorem mainRun_snd (cfg : Config) (ins : Nat → CycleIn) (n : Nat) :
    (mainRun cfg ins n).2 = ⟨false⟩ := by
  cases n <;> rfl

theorem count_mainScript_initEvents (cfg : Config) (sf : Bool) :
    (initEvents cfg sf).count Ev.mainScript = 0 := by
  rw [List.count_eq_zero]
  simp [initEvents]

theorem count_mainScript_replLoop (n : Nat) :
    (replLoop n).count Ev.mainScript = 0 := by
  rw [List.count_eq_zero]
  intro h
  rw [replLoop, List.mem_flatten] at h
  obtain ⟨l, hl, hm⟩ := h
  rw [List.mem_replicate] at hl
  rw [hl.2] at hm
  simp at hm

theorem count_mainScript_hostScriptBlock :
    ∀ ready fault busy waitFault irq0 : Bool,
      ((hostScriptBlock ready fault busy waitFault irq0).1).count Ev.mainScript = 0 := by
  decide

theorem count_mainScript_deinit (cfg : Config) :
    ((deinitOrder cfg).map Ev.deinitSub).count Ev.mainScript = 0 := by
  rw [List.count_eq_zero]
  simp

theorem count_mainScript_cycle (cfg : Config) (first : Bool) (cin : CycleIn) :
    (cycleEvents cfg first cin).count Ev.mainScript =
      if first && !cin.interrupted && cin.mainExists then 1 else 0 := by
  rw [cycleEvents, List.count_append, List.count_append, List.count_append,
    count_mainScript_initEvents, count_mainScript_deinit]
  cases hb : (first && !cin.interrupted && cin.mainExists) with
  | true =>
      simp [hb]
  | false =>
      simp [hb, List.count_append, count_mainScript_replLoop,
        count_mainScript_hostScriptBlock]

/-! ## Claim theorems -/

/-- C1: the `main.py` run happens at most once over the power-on
lifetime of the device: the count of `mainScript` events in cycle `n`
of `main` is 1 exactly when `n = 0` (the first cycle after power-on,
`first_soft_reset` true), the `boot.py` run did not report an
interruption, and `main.py` exists — and 0 in every other cycle, in
particular in every cycle after a soft reset and whenever the boot
script run reported an interruption. -/
theorem mainScript_once (cfg : Config) (ins : Nat → CycleIn) (n : Nat) :
    ((mainRun cfg ins n).1).count Ev.mainScript =
      if n = 0 ∧ (ins 0).interrupted = false ∧ (ins 0).mainExists = true
      then 1 else 0 := by
  cases n with
  | zero =>
      show (cycleEvents cfg true (ins 0)).count Ev.mainScript = _
      rw [count_mainScript_cycle]
      cases h1 : (ins 0).interrupted <;> cases h2 : (ins 0).mainExists <;>
        simp [h1, h2]
  | succ k =>
      show (cycleStep cfg (mainRun cfg ins k).2 (ins (k + 1))).1.count Ev.mainScript = _
      rw [mainRun_snd]
      show (cycleEvents cfg false (ins (k + 1))).count Ev.mainScript = _
      rw [count_mainScript_cycle]
      simp

/-- C2 counterexample: the enable/disable bracket is not symmetric on
the fault path. With the IDE interrupt disabled on entry
(`irq0 = false`), a ready script that faults and leaves the channel
not busy ends the block with the interrupt enabled: the trace is
enable, faulting run, print-exception — the disable call is skipped —
so the state after the run (`true`) differs from the state before
(`false`). -/
theorem hostScript_bracket_cex :
    (hostScriptBlock true true false false false).1 =
      [Ev.setIrq true, Ev.execScript true, Ev.printException] ∧
    (hostScriptBlock true true false false false).2 = true ∧
    (true : Bool) ≠ false := by decide

/-- C2 amended: the disable step of the bracket runs only on normal
completion of each guarded section. After the host-script block on a
ready script, the IDE-interrupt enable state is `true` exactly when
the last guarded section entered faulted (the script run when the
channel is not busy afterwards, the bounded wait when it is),
independent of the state on entry — so on the intercepted-fault path
with no follow-up busy wait the interrupt is left enabled. -/
theorem hostScript_bracket_amended (fault busy waitFault irq0 : Bool) :
    (hostScriptBlock true fault busy waitFault irq0).2 =
      (if busy then waitFault else fault) := by
  cases fault <;> cases busy <;> cases waitFault <;> rfl

/-- C3 counterexample: when a host script is ready the code does not
disable-then-run-then-enable-then-wait. On a normally completing
script with the channel busy afterwards, the trace is: enable the IDE
interrupt, run the script, disable, then enable, bounded wait
(1000 ms), disable — which differs from the claimed sequence; and when
the channel is not busy the bounded wait is not called at all. -/
theorem hostScript_order_cex :
    (hostScriptBlock true false true false false).1 =
      [Ev.setIrq true, Ev.execScript false, Ev.setIrq false,
       Ev.setIrq true, Ev.waitForCommand 1000, Ev.setIrq false] ∧
    (hostScriptBlock true false true false false).1 ≠ claimedHostSeq ∧
    Ev.waitForCommand 1000 ∉ (hostScriptBlock true false false false false).1 := by
  decide

/-- C3 amended: on a ready script that completes normally, the
orchestrator enables the debug channel interrupt, hands the buffered
script to the guarded execution, then disables the interrupt; after
that, only when the debug channel is busy, it re-enables the
interrupt, calls the bounded wait with timeout 1000 ms, and disables
the interrupt again. -/
theorem hostScript_order_amended (busy irq0 : Bool) :
    (hostScriptBlock true false busy false irq0).1 =
      [Ev.setIrq true, Ev.execScript false, Ev.setIrq false]
      ++ (if busy then [Ev.setIrq true, Ev.waitForCommand 1000, Ev.setIrq false]
          else []) := by
  cases busy <;> rfl

/-- C4 counterexample: with every subsystem compiled in and every init
succeeding, teardown calls deinit on `machine_pwm` — a subsystem that
has no init call in the cycle — and the executed deinit sequence is
not the reverse of the successful-init sequence. -/
theorem tear_down_cex :
    Subsys.pwm ∈ tear_down ⟨true, true, true, true⟩ (fun _ => true) ∧
    Subsys.pwm ∉ initOrder ⟨true, true, true, true⟩ ∧
    tear_down ⟨true, true, true, true⟩ (fun _ => true) ≠
      claimedTearDown ⟨true, true, true, true⟩ (fun _ => true) := by decide

/-- C4 amended: teardown runs a fixed deinit sequence unconditionally,
identical for every sequence of init outcomes; the sequence includes
`machine_pwm`, which is never initialized in the cycle, and (per the
counterexample) it is not the reverse of the initialization order —
e.g. `rp2_pio` and `rp2_dma` are deinitialized in the same relative
order in which they were initialized. -/
theorem tear_down_amended (cfg : Config) (o1 o2 : Subsys → Bool) :
    tear_down cfg o1 = deinitOrder cfg ∧
    tear_down cfg o1 = tear_down cfg o2 ∧
    Subsys.pwm ∈ tear_down cfg o1 ∧
    Subsys.pwm ∉ initOrder cfg := by
  refine ⟨rfl, rfl, ?_, ?_⟩
  · show Subsys.pwm ∈ deinitOrder cfg
    obtain ⟨a, b, n, s⟩ := cfg
    cases a <;> cases b <;> cases n <;> cases s <;> decide
  · obtain ⟨a, b, n, s⟩ := cfg
    cases a <;> cases b <;> cases n <;> cases s <;> decide

/-- C5: `rosc_random_u8` with `sample_cycles = bits.length` returns the
iteration, from the accumulator entry value, of the specified step —
shift left, inject the sampled bit at the bottom, XOR with 0xD5 when
the old top bit was set — and its hardware trace interleaves a fixed
1 µs delay after each sample, so a delay separates every two
consecutive samples. -/
theorem rosc_random_u8_iterates (r : Nat) (h : r < 256) (bits : List Bool) :
    (rosc_random_u8 r bits).1 = bits.foldl specStep r ∧
    (rosc_random_u8 r bits).2 =
      (bits.map fun b => [REv.sample b, REv.delayUs 1]).flatten := by
  constructor
  · have key : ∀ bs : List Bool, ∀ r, r < 256 →
        bs.foldl roscStep r = bs.foldl specStep r := by
      intro bs
      induction bs with
      | nil => intro r _; rfl
      | cons b rest ih =>
          intro r hr
          have hs := roscStep_spec r hr b
          simp only [List.foldl_cons]
          rw [← hs.1]
          exact ih _ hs.2
    exact (rosc_fst r bits).trans (key bits r h)
  · clear h
    induction bits generalizing r with
    | nil => rfl
    | cons b rest ih => simp [rosc_random_u8, ih]

/-- C5 witness: the theorem instantiated at accumulator value 3 and
the sampled bit sequence `[true, false]`. -/
theorem rosc_random_u8_iterates_witness :
    3 < 256 ∧
    ((rosc_random_u8 3 [true, false]).1 = [true, false].foldl specStep 3 ∧
     (rosc_random_u8 3 [true, false]).2 =
       ([true, false].map fun b => [REv.sample b, REv.delayUs 1]).flatten) :=
  ⟨by decide, rosc_random_u8_iterates 3 (by decide) [true, false]⟩

/-- C6 counterexample: the accumulator does persist across extraction
calls. Starting from power-on (`r = 0`), a first call sampling the
single bit 1 returns 1; an immediately following call with the same
`sample_cycles` and the same sampled bit returns 3 ≠ 1, because the
`static` accumulator carried the 1 over. -/
theorem rosc_persistence_cex :
    (runCalls 0 [[true]]).1 = [1] ∧
    (runCalls 0 [[true], [true]]).1 = [1, 3] ∧
    (1 : Nat) ≠ 3 := by decide

/-- C6 amended: the accumulator is a `static` variable that persists
across extraction calls. After any sequence of calls its value is the
fold of the step over the concatenation of all bits sampled since
power-on (starting from 0), and the byte returned by the next call is
the fold of its own bits starting from that carried-over value — not
from a fresh accumulator. -/
theorem rosc_accumulator_static (calls : List (List Bool)) (bits : List Bool) :
    (runCalls 0 calls).2 = calls.flatten.foldl roscStep 0 ∧
    (runCalls 0 (calls ++ [bits])).1.getLast? =
      some (bits.foldl roscStep ((runCalls 0 calls).2)) := by
  refine ⟨runCalls_snd 0 calls, ?_⟩
  rw [runCalls_append]
  simp [runCalls, rosc_fst, List.getLast?_concat]

/-- C7: when `sensor_init` fails in a cycle, the cycle logs
`sensor init failed!` and still proceeds: the boot script still runs
and the teardown sequence (ending in `mp_deinit`) still completes —
the init failure neither halts the device nor aborts the cycle. -/
theorem sensor_init_degraded (cfg : Config) (ins : Nat → CycleIn) (n : Nat)
    (hs : cfg.sensor = true) (hf : (ins n).sensorFail = true) :
    Ev.log "sensor init failed!" ∈ (mainRun cfg ins n).1 ∧
    Ev.bootScript (ins n).interrupted ∈ (mainRun cfg ins n).1 ∧
    Ev.deinitSub Subsys.mp ∈ (mainRun cfg ins n).1 := by
  have key : ∀ first, (mainRun cfg ins n).1 = cycleEvents cfg first (ins n) →
      Ev.log "sensor init failed!" ∈ (mainRun cfg ins n).1 ∧
      Ev.bootScript (ins n).interrupted ∈ (mainRun cfg ins n).1 ∧
      Ev.deinitSub Subsys.mp ∈ (mainRun cfg ins n).1 := by
    intro first hrun
    rw [hrun]
    refine ⟨?_, ?_, ?_⟩
    · simp [cycleEvents, initEvents, hs, hf]
    · simp [cycleEvents]
    · simp [cycleEvents, deinitOrder]
  cases n with
  | zero => exact key true rfl
  | succ k =>
      refine key (mainRun cfg ins k).2.firstSoftReset ?_
      rfl

/-- C7 witness: the theorem instantiated at the concrete configuration
`cfgW` (sensor compiled in) and inputs `insW` (sensor init fails),
cycle 0. -/
theorem sensor_init_degraded_witness :
    cfgW.sensor = true ∧ (insW 0).sensorFail = true ∧
    (Ev.log "sensor init failed!" ∈ (mainRun cfgW insW 0).1 ∧
     Ev.bootScript (insW 0).interrupted ∈ (mainRun cfgW insW 0).1 ∧
     Ev.deinitSub Subsys.mp ∈ (mainRun cfgW insW 0).1) :=
  ⟨rfl, rfl, sensor_init_degraded cfgW insW 0 rfl rfl⟩

/-- C8: the fatal handler is terminal: the `while (true)` guard is the
literal `true` (the loop never exits, so `__fatal_error` never returns
and never re-enters the lifecycle), each iteration appends exactly the
fixed blink body, and after `n` iterations the emitted trace is the
GPIO setup followed by `n` copies of LED-on, sleep 100 ms, LED-off,
sleep 100 ms — a visible binary signal of fixed period. -/
theorem fatal_error_terminal (n : Nat) :
    fatalLoopGuard = true ∧
    fatalEvents (n + 1) = fatalEvents n ++ fatalBody ∧
    fatalEvents n =
      [FEv.gpioInit, FEv.gpioSetDir] ++ (List.replicate n fatalBody).flatten := by
  refine ⟨rfl, rfl, ?_⟩
  induction n with
  | zero => rfl
  | succ k ih =>
      show fatalEvents k ++ fatalBody = _
      rw [ih, List.replicate_succ']
      simp [List.append_assoc]

/-- C9: the lifecycle loops indefinitely: the code after teardown sets
`first_soft_reset` to false and jumps back to `soft_reset`
unconditionally — never falling through to `return 0` — so for every
`n` the cycle `n + 1` exists and re-enters the cycle body with
`first_soft_reset = false`. -/
theorem lifecycle_loops (cfg : Config) (ins : Nat → CycleIn) (n : Nat) (s : LoopSt) :
    (afterTeardown s).1 = NextCtl.softReset ∧
    (afterTeardown s).1 ≠ NextCtl.retZero ∧
    mainRun cfg ins (n + 1) = cycleStep cfg ⟨false⟩ (ins (n + 1)) := by
  refine ⟨rfl, fun h => NextCtl.noConfusion h, ?_⟩
  show cycleStep cfg (mainRun cfg ins n).2 (ins (n + 1)) = _
  rw [mainRun_snd]

/-- C10: calling `rosc_random_u8` with `sample_cycles = 0` performs no
sampling and no delay and returns the accumulator unchanged: the
returned byte is 0 on the first call after power-on (the `static` is
zero-initialised), and otherwise the byte left behind by the previous
extraction call. -/
theorem rosc_zero_cycles (r : Nat) (calls : List (List Bool)) :
    rosc_random_u8 r [] = (r, []) ∧
    (runCalls 0 [[]]).1 = [0] ∧
    (runCalls 0 (calls ++ [[]])).1.getLast? = some (runCalls 0 calls).2 := by
  refine ⟨rfl, rfl, ?_⟩
  rw [runCalls_append]
  simp [runCalls, rosc_random_u8, List.getLast?_concat]

end RP2Main
